import Mathlib

/-!
Verification development for the RK_tools repository.

This file shallowly embeds the two mechanisms specified for the repository:
the bounded index looper of the spreadsheet row readers
(RK_CSV.py, RK_Read_Excel_Row.py, rk_seed.py) and the deduplicating
generation memory of the prompt generator (prompt_gen_v03.py).

Modelling conventions, used consistently below:
- Python integers are Int, Python strings are String, rows of a parsed
  spreadsheet are List String.
- The filesystem, the CSV/Excel parsing libraries, the float parser and the
  random sources are external collaborators: they enter the definitions as
  function arguments, so every theorem quantifies over their behaviour.
- Fallible code is embedded as Except String; the catch-all boundary
  handlers of the source are separate definitions on top of the
  Except-valued body.
- The persisted loop-state file is modelled by Option Int: some v stands
  for a file whose stripped contents parse as the integer v, none for a
  missing file or unparsable contents (the source treats both as absent).
- Python floats in rk_seed.py are modelled by exact rationals; the
  rounding performed by float formatting is modelled by round on Rat.
-/

/-! ## Generic character and list helpers (Python str.strip and friends) -/

/-- Python whitespace: the character class matched by the re escape for
whitespace on str patterns and stripped by str.strip(), which is Unicode
whitespace: the six ASCII whitespace characters plus the whitespace
control and separator code points of Unicode (the set on which
str.isspace() holds). -/
def isPySpace (c : Char) : Bool :=
  c == ' ' || c == '\t' || c == '\n' || c == '\r' || c == '\x0b' || c == '\x0c'
  || c == '\x1c' || c == '\x1d' || c == '\x1e' || c == '\x1f'
  || c == '\x85' || c == '\xa0' || c == '\u1680'
  || (decide ('\u2000' ≤ c) && decide (c ≤ '\u200A'))
  || c == '\u2028' || c == '\u2029' || c == '\u202F' || c == '\u205F' || c == '\u3000'

/-- Remove from both ends of a list every character satisfying p, as
Python str.strip with a character class does. -/
def stripBoth (p : Char → Bool) (l : List Char) : List Char :=
  ((l.dropWhile p).reverse.dropWhile p).reverse

/-- Python str.strip() on a list of characters. -/
def pyStripL (l : List Char) : List Char :=
  stripBoth isPySpace l

/-- Python str.strip() on a String. -/
def pyStrip (s : String) : String :=
  String.mk (pyStripL s.data)

/-- Python str.strip(chars) on a String: removes leading and trailing
characters belonging to the given set. -/
def pyStripSet (cs : List Char) (s : String) : String :=
  String.mk (stripBoth (fun c => cs.contains c) s.data)

/-! ## RK_CSV.py: RK_Excel_File_State_Looper -/

/-- The characters stripped from the joined row text by read_row
(RK_CSV.py line 135): a space, the ASCII double quote and the two
Unicode smart quotes. -/
def stripChars : List Char := [' ', '"', '“', '”']

/-- The in-memory cache of RK_Excel_File_State_Looper: the class
attributes file_path_cache and file_data_cache (RK_CSV.py lines 47-49).
file_path_cache = none models the initial Python None. -/
structure Cache where
  file_path_cache : Option String
  file_data_cache : List (List String)
deriving DecidableEq

/-- The initial cache (both class attributes None; an absent data cache is
modelled by the empty row list, it is never served because the path
cache is none). -/
def cache0 : Cache := ⟨none, []⟩

/-- Lowercased extension of a path, as os.path.splitext produces it
(suffix of the basename from its last dot, where leading dots of the
basename do not count), followed by str.lower (RK_CSV.py lines 59-60). -/
def pyExt (file_path : String) : String :=
  let basename := (file_path.data.reverse.takeWhile (fun c => c ≠ '/' ∧ c ≠ '\\')).reverse
  let rest := basename.dropWhile (fun c => c = '.')
  if rest.contains '.' then
    String.mk (('.' :: (rest.reverse.takeWhile (fun c => c ≠ '.')).reverse).map Char.toLower)
  else ""

/-- load_file (RK_CSV.py lines 51-72). The filesystem is the function fs
(path to raw contents, none = missing file) and the CSV library is the
function parse (delimiter and raw contents to rows). When the cached path
equals the requested path the cached rows are returned unchanged and
neither fs nor parse is consulted; otherwise the file is checked, parsed
with the requested delimiter and cached. -/
def load_file (fs : String → Option String) (parse : String → String → List (List String))
    (c : Cache) (file_path delimiter : String) :
    Except String (List (List String) × Cache) :=
  if c.file_path_cache = some file_path then
    .ok (c.file_data_cache, c)
  else
    match fs file_path with
    | none => .error "FileNotFoundError"
    | some raw =>
      if pyExt file_path ≠ ".csv" then .error "ValueError: unsupported extension"
      else
        let data := parse delimiter raw
        .ok (data, ⟨some file_path, data⟩)

/-- The three index-normalisation steps of read_row
(RK_CSV.py lines 101-108), in source order: clamp start_index below by 0,
clamp end_index above by total_rows - 1, swap if end_index < start_index. -/
def normalizeRange (total_rows start_index end_index : Int) : Int × Int :=
  let s := if start_index < 0 then 0 else start_index
  let e := if end_index ≥ total_rows then total_rows - 1 else end_index
  if e < s then (e, s) else (s, e)

/-- read_current_index (RK_CSV.py lines 82-90): the persisted index if the
state file exists and parses as an integer, else start_index. -/
def read_current_index (state : Option Int) (start_index : Int) : Int :=
  state.getD start_index

/-- The increment-mode step of read_row (RK_CSV.py lines 119-125): read
the current index, advance by step_size, wrap to start_index when the
advanced value would exceed end_index, and persist the advanced value.
Returns the pre-increment index and the new state-file contents. -/
def incStep (start_index end_index step_size : Int) (state : Option Int) :
    Int × Option Int :=
  let current_index := read_current_index state start_index
  let new_index := current_index + step_size
  (current_index, some (if new_index > end_index then start_index else new_index))

/-- random.randint lo hi: the library guarantee is a uniform integer of
the closed interval when lo is at most hi, and a ValueError otherwise; the
choice itself is driven by the seed argument. -/
def randint (lo hi : Int) (seed : Nat) : Except String Int :=
  if lo ≤ hi then .ok (lo + ((seed % (hi - lo + 1).toNat : Nat) : Int))
  else .error "ValueError: randint"

/-- The mode dispatch of read_row (RK_CSV.py lines 112-128) applied to the
normalised range: disabled and unknown modes select start_index and leave
the state alone, random draws from the closed range, increment performs
incStep. Returns the chosen index and the state-file contents after the
call. -/
def chooseIndexE (loop_mode : String) (start_index end_index step_size : Int)
    (state : Option Int) (seed : Nat) : Except String (Int × Option Int) :=
  if loop_mode = "disabled" then .ok (start_index, state)
  else if loop_mode = "random" then
    (randint start_index end_index seed).map (fun r => (r, state))
  else if loop_mode = "increment" then .ok (incStep start_index end_index step_size state)
  else .ok (start_index, state)

/-- Python list indexing data[i]: nonnegative indices below the length,
negative indices counted from the end, IndexError otherwise. -/
def pyIndexE (data : List (List String)) (i : Int) : Except String (List String) :=
  let n : Int := data.length
  if 0 ≤ i ∧ i < n then .ok (data.getD i.toNat [])
  else if -n ≤ i ∧ i < 0 then .ok (data.getD (i + n).toNat [])
  else .error "IndexError"

/-- The body of read_row (RK_CSV.py lines 96-141), before the catch-all
except clause: load (or serve from cache), normalise the range, choose the
index per loop_mode, fetch the row and join its cells with the delimiter,
stripping leading and trailing spaces and quote characters. Returns the
row text together with the observable side effects: the chosen index
(printed by the source), the new cache and the new state-file contents. -/
def read_rowE (fs : String → Option String) (parse : String → String → List (List String))
    (cache : Cache) (state : Option Int) (seed : Nat)
    (file_path loop_mode : String) (start_index end_index step_size : Int)
    (delimiter : String) : Except String (String × Int × Cache × Option Int) :=
  match load_file fs parse cache file_path delimiter with
  | .error e => .error e
  | .ok (data, cache2) =>
    let se := normalizeRange (data.length : Int) start_index end_index
    match chooseIndexE loop_mode se.1 se.2 step_size state seed with
    | .error e => .error e
    | .ok (chosen_index, state2) =>
      match pyIndexE data chosen_index with
      | .error e => .error e
      | .ok row_data =>
        .ok (pyStripSet stripChars (String.intercalate delimiter row_data),
             chosen_index, cache2, state2)

/-- read_row with its outer try/except (RK_CSV.py lines 97, 143-145):
every failure of the body is caught and converted to the empty string. -/
def read_row (fs : String → Option String) (parse : String → String → List (List String))
    (cache : Cache) (state : Option Int) (seed : Nat)
    (file_path loop_mode : String) (start_index end_index step_size : Int)
    (delimiter : String) : String :=
  match read_rowE fs parse cache state seed file_path loop_mode
      start_index end_index step_size delimiter with
  | .ok r => r.1
  | .error _ => ""

/-! ### The increment-mode run, starting from no persisted state -/

/-- State-file contents after n increment-mode calls over the normalised
range, starting from no persisted state (so the first call reads
start_index). -/
def fileAfter (a b s : Int) : Nat → Option Int
  | 0 => none
  | n + 1 => (incStep a b s (fileAfter a b s n)).2

/-- Index returned by the increment-mode call number n (counting from 0):
the pre-increment value read from the state file. -/
def returnedIndex (a b s : Int) (n : Nat) : Int :=
  (incStep a b s (fileAfter a b s n)).1

/-! ## RK_Read_Excel_Row.py -/

/-- The body of read_excel_row (RK_Read_Excel_Row.py lines 33-51). The
Excel file and the pandas parse are the external function xfs (none =
missing file); the explicit range check of the source precedes the row
access, and the row cells are joined by the delimiter (no quote
stripping in this node). -/
def read_excel_rowE (xfs : String → Option (List (List String)))
    (file_path : String) (row_index : Int) (delimiter : String) :
    Except String String :=
  match xfs file_path with
  | none => .error "FileNotFoundError"
  | some df =>
    if row_index < 0 ∨ row_index ≥ (df.length : Int) then .error "IndexError"
    else .ok (String.intercalate delimiter (df.getD row_index.toNat []))

/-- read_excel_row with its outer try/except (RK_Read_Excel_Row.py
lines 53-55): every failure is caught and converted to the empty string. -/
def read_excel_row (xfs : String → Option (List (List String)))
    (file_path : String) (row_index : Int) (delimiter : String) : String :=
  match read_excel_rowE xfs file_path row_index delimiter with
  | .ok r => r
  | .error _ => ""

/-! ## rk_seed.py: RK_seed -/

/-- The mutable attributes of an RK_seed instance (rk_seed.py
lines 64-67). -/
structure SeedState where
  current_index : Int
  current_value : Rat
  values_list : List Rat
deriving DecidableEq

/-- The initial instance state (zeroes and the empty list). -/
def seedState0 : SeedState := ⟨0, 0, []⟩

/-- Rounding to a fixed number of decimal places, the numeric effect of
the format string of format_float (rk_seed.py lines 69-72); the exact
tie-breaking of IEEE formatting is approximated by round. -/
def roundToPlaces (value : Rat) (d : Nat) : Rat :=
  ((round (value * (10 : Rat) ^ d) : Int) : Rat) / (10 : Rat) ^ d

/-- format_float (rk_seed.py lines 69-72): formatting with a negative
precision raises a ValueError, otherwise the value is rounded to
decimal_places places. -/
def format_float (value : Rat) (decimal_places : Int) : Except String Rat :=
  if decimal_places < 0 then .error "ValueError: negative precision"
  else .ok (roundToPlaces value decimal_places.toNat)

/-- Decimal rendering of a rational to d places (the string produced by
the format expression of rk_seed.py line 135). -/
def ratToFixedStr (q : Rat) (d : Nat) : String :=
  let scaled : Int := round (q * (10 : Rat) ^ d)
  let a := scaled.natAbs
  let sign := if scaled < 0 then "-" else ""
  if d = 0 then sign ++ toString a
  else
    let frac := toString (a % 10 ^ d)
    sign ++ toString (a / 10 ^ d) ++ "." ++
      String.mk (List.replicate (d - frac.length) '0') ++ frac

/-- The format expression of rk_seed.py line 135: fails on a negative
precision, otherwise renders the value with d decimal places. -/
def formatFixed (q : Rat) (d : Int) : Except String String :=
  if d < 0 then .error "ValueError: negative precision"
  else .ok (ratToFixedStr q d.toNat)

/-- Python truthiness of the optional custom_values argument:
present and nonempty. -/
def customTruthy : Option String → Bool
  | none => false
  | some s => s ≠ ""

/-- The custom-values parse of the fixed mode (rk_seed.py lines 90-91):
split on commas, strip each piece, parse it as a float (the builtin float
is the external function pyFloat) and round it with format_float. Any
failure aborts the whole parse, as the comprehension does. -/
def parseCustom (pyFloat : String → Except String Rat) (decimal_places : Int)
    (cs : String) : Except String (List Rat) :=
  (cs.splitOn ",").mapM (fun x =>
    match pyFloat (pyStrip x) with
    | .error e => .error e
    | .ok v => format_float v decimal_places)

/-- The output tuple of process_seed (rk_seed.py lines 137-146). -/
structure SeedOut where
  seed_dict : Int
  number : Rat
  float_out : Rat
  int_out : Int
  str_out : String
  loop_value : Rat
  loop_index : Int
  loop_value_string : String
deriving DecidableEq

/-- The body of process_seed (rk_seed.py lines 74-146), before the outer
except clause. pyFloat models the builtin float parser, uniform models
random.uniform. Mirrors the source: swap start and end values when
inverted; in fixed mode parse the custom values inside an inner
try/except whose failure falls back to start_value; in random mode draw
and round; in increment and decrement mode derive the step count from
the rounded quotient of the range by the step size (a zero step size is
the float division by zero of the source, a zero step count the integer
modulo by zero), then advance current_index; clamp the loop value to 100
and reset current_index when it reaches loop_count; finally format the
loop value, which fails when decimal_places is negative. -/
def process_seedE (pyFloat : String → Except String Rat) (uniform : Rat → Rat → Rat)
    (seed : Int) (loop_mode : String) (start_value0 end_value0 step_size : Rat)
    (loop_count : Int) (decimal_places : Int) (custom_values : Option String)
    (self : SeedState) : Except String (SeedOut × SeedState) :=
  let p := if start_value0 > end_value0 then (end_value0, start_value0)
           else (start_value0, end_value0)
  let start_value := p.1
  let end_value := p.2
  let stepped : Except String (Rat × List Rat × Int) :=
    if loop_mode = "disabled" then .ok (start_value, self.values_list, self.current_index)
    else
      let inner : Except String (Rat × List Rat × Int) :=
        if loop_mode = "fixed" ∧ customTruthy custom_values then
          match parseCustom pyFloat decimal_places (custom_values.getD "") with
          | .ok vl =>
            .ok (vl.getD (self.current_index.emod (vl.length : Int)).toNat 0, vl,
                 self.current_index)
          | .error _ => .ok (start_value, self.values_list, self.current_index)
        else if loop_mode = "random" then
          (format_float (uniform start_value end_value) decimal_places).map
            (fun v => (v, self.values_list, self.current_index))
        else if loop_mode = "increment" ∨ loop_mode = "decrement" then
          if step_size = 0 then .error "ZeroDivisionError"
          else
            let n_steps : Int := round ((end_value - start_value) / step_size) + 1
            if n_steps = 0 then .error "ZeroDivisionError"
            else
              let adjusted := self.current_index.emod n_steps
              let base := if loop_mode = "increment" then
                  start_value + (adjusted : Rat) * step_size
                else end_value - (adjusted : Rat) * step_size
              (format_float base decimal_places).map
                (fun v => (v, self.values_list, self.current_index + 1))
        else .ok (start_value, self.values_list, self.current_index)
      match inner with
      | .error e => .error e
      | .ok (lv, vl, ci) =>
        let lv2 := if lv > 100 then 100 else lv
        let ci2 := if ci ≥ loop_count then 0 else ci
        .ok (lv2, vl, ci2)
  match stepped with
  | .error e => .error e
  | .ok (lv, vl, ci) =>
    match formatFixed lv decimal_places with
    | .error e => .error e
    | .ok str =>
      .ok (⟨seed, (seed : Rat), (seed : Rat), seed, toString seed, lv, ci, str⟩,
           ⟨ci, lv, vl⟩)

/-- process_seed with its outer try/except (rk_seed.py lines 148-150): the
caught exception is logged and re-raised unchanged, so the caller observes
exactly the failure of the body. -/
def process_seed (pyFloat : String → Except String Rat) (uniform : Rat → Rat → Rat)
    (seed : Int) (loop_mode : String) (start_value0 end_value0 step_size : Rat)
    (loop_count : Int) (decimal_places : Int) (custom_values : Option String)
    (self : SeedState) : Except String (SeedOut × SeedState) :=
  match process_seedE pyFloat uniform seed loop_mode start_value0 end_value0 step_size
      loop_count decimal_places custom_values self with
  | .ok r => .ok r
  | .error e => .error e

/-! ## prompt_gen_v03.py: parsing and the deduplicating generation memory -/

/-- A generated record (prompt_gen_v03.py parse_ollama_output): title,
description and style. Structural equality of the three fields is the
deduplication key. -/
structure Record where
  title : String
  description : String
  style : String
deriving DecidableEq

/-- Line-start suffixes of a response after each newline: together with
the whole response, these are the positions at which the multiline caret
anchor of the re searches of parse_ollama_output can begin a match. -/
def lineStartsAux : List Char → List (List Char)
  | [] => []
  | c :: cs =>
    if c = '\n' then cs :: lineStartsAux cs else lineStartsAux cs

/-- All match start positions of a multiline re.search, in position
order: the whole response, then the suffix after each newline. -/
def lineStarts (l : List Char) : List (List Char) :=
  l :: lineStartsAux l

/-- The capture when everything following the label up to the end of the
response is whitespace: the greedy whitespace run after the label
backtracks to its last character that is not a newline (the dot of the
group cannot match a newline, and every later character of the run is a
newline), and the group is that single whitespace character; when the
run consists of newlines only, the pattern cannot complete at this match
start. -/
def wsOnlyCapture (r : List Char) : Option (List Char) :=
  match (r.filter (fun c => c ≠ '\n')).getLast? with
  | some c => some [c]
  | none => none

/-- The capture of the description and style regexes after their label
(prompt_gen_v03.py lines 29-30): the whitespace run after the label is
skipped greedily and also consumes newlines, so the greedy dot-plus
group starts at the first non-whitespace character after the label,
possibly on a later line, and extends to the end of that character's
line; when only whitespace follows the label, wsOnlyCapture applies. -/
def restCapture (r : List Char) : Option (List Char) :=
  match r.dropWhile isPySpace with
  | [] => wsOnlyCapture r
  | c :: cs => some ((c :: cs).takeWhile (fun x => x ≠ '\n'))

/-- The quote handling of the title regex of prompt_gen_v03.py line 28
applied to the nonempty captured segment (the first non-whitespace
character after the label up to the end of its line): consume one
optional opening quote (only when a nonempty capture remains), then,
from the end, the maximal run of trailing whitespace and at most one
closing quote (again only when a nonempty capture remains), matching the
backtracking of the lazy group. -/
def titleExtract (t0 : List Char) : List Char :=
  let t1 := if 2 ≤ t0.length ∧ (t0.head? = some '"' ∨ t0.head? = some '“') then
      t0.drop 1 else t0
  let r := t1.reverse.dropWhile isPySpace
  let r2 := if 2 ≤ r.length ∧ (r.head? = some '"' ∨ r.head? = some '”') then
      r.drop 1 else r
  r2.reverse

/-- The capture of the title regex after its label (prompt_gen_v03.py
line 28): as restCapture, with the lazy group's optional surrounding
quotes and trailing whitespace handled by titleExtract on the captured
segment. -/
def restCaptureTitle (r : List Char) : Option (List Char) :=
  match r.dropWhile isPySpace with
  | [] => wsOnlyCapture r
  | c :: cs => some (titleExtract ((c :: cs).takeWhile (fun x => x ≠ '\n')))

/-- One attempt of an anchored labelled pattern at a match start: the
caret anchor followed by the greedy whitespace star skips whitespace,
newlines included, so the case-insensitive label must sit at the first
non-whitespace character after the start (the labels being ASCII, the
folding is the ASCII one); the rest of the response after the label is
then captured by cap. -/
def matchAt (label : List Char) (cap : List Char → Option (List Char))
    (s : List Char) : Option (List Char) :=
  let t := s.dropWhile isPySpace
  if (t.take label.length).map Char.toLower = label then
    cap (t.drop label.length)
  else none

/-- re.search of a multiline anchored pattern: the capture at the first
match start, in position order, where the whole pattern matches; a start
where the label is found but the pattern cannot complete does not stop
the search. -/
def searchStarts (label : List Char) (cap : List Char → Option (List Char)) :
    List (List Char) → Option (List Char)
  | [] => none
  | s :: rest =>
    match matchAt label cap s with
    | some g => some g
    | none => searchStarts label cap rest

/-- The title_match search of parse_ollama_output (line 28). -/
def titleSearch (response : String) : Option (List Char) :=
  searchStarts "title:".data restCaptureTitle (lineStarts response.data)

/-- The desc_match search of parse_ollama_output (line 29). -/
def descSearch (response : String) : Option (List Char) :=
  searchStarts "description:".data restCapture (lineStarts response.data)

/-- The style_match search of parse_ollama_output (line 30). -/
def styleSearch (response : String) : Option (List Char) :=
  searchStarts "style:".data restCapture (lineStarts response.data)

/-- group(1).strip() applied to an optional capture, with the empty
string for a missing match (prompt_gen_v03.py lines 35-37). -/
def extractedField (m : Option (List Char)) : String :=
  String.mk (pyStripL (m.getD []))

/-- parse_ollama_output (prompt_gen_v03.py lines 20-46): none when no
label matches, otherwise the three stripped captures, degraded to none
again when all three are empty. -/
def parse_ollama_output (response : String) : Option Record :=
  let tm := titleSearch response
  let dm := descSearch response
  let sm := styleSearch response
  if tm = none ∧ dm = none ∧ sm = none then none
  else
    let title := extractedField tm
    let descr := extractedField dm
    let style := extractedField sm
    if title = "" ∧ descr = "" ∧ style = "" then none
    else some ⟨title, descr, style⟩

/-- The record processed by one attempt of generate_prompts_for_model
(prompt_gen_v03.py lines 267-273): the parse result, or the UNPARSED
fallback carrying the whole raw response when parsing yields none. -/
def attemptRecord (response : String) : Record :=
  match parse_ollama_output response with
  | some r => r
  | none => ⟨"UNPARSED", response, ""⟩

/-- The state touched by one generation loop for one model key:
memory is ALL_PROMPTS_MEMORY[model_name], buffer is
new_prompts_this_run, saved are the records already flushed to the CSV
sink, accepted is prompt_index and attempts the attempt counter. -/
structure GenState where
  memory : List Record
  buffer : List Record
  saved : List Record
  accepted : Nat
  attempts : Nat
deriving DecidableEq

/-- The state at the start of a run with no durable memory for the key. -/
def initGenState : GenState := ⟨[], [], [], 0, 0⟩

/-- The duplicate check of prompt_gen_v03.py lines 276-289: structural
equality of all three fields against the durable memory when use_memory,
against the current run's buffer otherwise. -/
def isDup (use_memory : Bool) (st : GenState) (r : Record) : Bool :=
  if use_memory then
    st.memory.any (fun p => p.title == r.title && p.description == r.description
      && p.style == r.style)
  else
    st.buffer.any (fun p => p.title == r.title && p.description == r.description
      && p.style == r.style)

/-- The acceptance part of one loop iteration (prompt_gen_v03.py
lines 291-330), given the already parsed (or fallback) record: a
duplicate changes nothing; otherwise the accepted counter advances, the
record is appended to the run buffer and, when use_memory, to the durable
memory, and when the accepted counter is a nonzero multiple of
auto_save_every the buffer is flushed to the sink and cleared. The
attempt counter is incremented by the loop itself, not here. -/
def processAttempt (use_memory : Bool) (auto_save_every : Nat) (r : Record)
    (st : GenState) : GenState :=
  if isDup use_memory st r then st
  else
    let accepted := st.accepted + 1
    let buffer := st.buffer ++ [r]
    let memory := if use_memory then st.memory ++ [r] else st.memory
    if 0 < auto_save_every ∧ accepted % auto_save_every = 0 then
      ⟨memory, [], st.saved ++ buffer, accepted, st.attempts⟩
    else
      ⟨memory, buffer, st.saved, accepted, st.attempts⟩

/-- A fixed sequence of attempts fed through the loop body: each attempt
consumes one unit of the attempt budget and is then processed by
processAttempt. -/
def runAttempts (use_memory : Bool) (auto_save_every : Nat) (rs : List Record)
    (st : GenState) : GenState :=
  rs.foldl (fun s r =>
    processAttempt use_memory auto_save_every r
      ⟨s.memory, s.buffer, s.saved, s.accepted, s.attempts + 1⟩) st

/-- The retry loop of generate_prompts_for_model (prompt_gen_v03.py
lines 224-330): while fewer than num_prompts records are accepted and
fewer than 3 * num_prompts attempts are spent, poll the stop flag (stopAt,
indexed by the attempt count at the start of the iteration), spend one
attempt, invoke the collaborator (resp; an invocation failure breaks the
loop), and process the parsed-or-fallback record. -/
def genRun (use_memory : Bool) (auto_save_every num : Nat) (stopAt : Nat → Bool)
    (resp : Nat → Except String String) (st : GenState) : GenState :=
  if h : st.accepted < num ∧ st.attempts < 3 * num then
    if stopAt st.attempts then st
    else
      match resp st.attempts with
      | .error _ => ⟨st.memory, st.buffer, st.saved, st.accepted, st.attempts + 1⟩
      | .ok r =>
        genRun use_memory auto_save_every num stopAt resp
          (processAttempt use_memory auto_save_every (attemptRecord r)
            ⟨st.memory, st.buffer, st.saved, st.accepted, st.attempts + 1⟩)
  else st
termination_by 3 * num - st.attempts
decreasing_by
  simp only [processAttempt]
  split
  · simp only []
    omega
  · split <;> simp only [] <;> omega

/-! ## Spec-words comparison definition and concrete environments -/

/-- Follows the words of the spec (and of claim C8) rather than the
source: strips only the ASCII double quote and the two smart quotes from
the ends of the joined row text, and nothing else. Used to compare the
spec sentence with the source behaviour, which also strips spaces. -/
def quoteOnlyStripSpec (s : String) : String :=
  String.mk (stripBoth (fun c => [ '"', '“', '”' ].contains c) s.data)

/-- A one-file filesystem: the path f.csv holds the raw text r. -/
def fsOne : String → Option String :=
  fun p => if p = "f.csv" then some "r" else none

/-- An empty filesystem. -/
def fsNone : String → Option String := fun _ => none

/-- A CSV library stub returning five one-cell rows a..e for any input. -/
def parseFive : String → String → List (List String) :=
  fun _ _ => [["a"], ["b"], ["c"], ["d"], ["e"]]

/-- The five rows produced by parseFive. -/
def dataFive : List (List String) := [["a"], ["b"], ["c"], ["d"], ["e"]]

/-- The cache after loading f.csv through parseFive. -/
def cacheFive : Cache := ⟨some "f.csv", dataFive⟩

/-- A CSV library stub returning a single row whose only cell has
surrounding spaces. -/
def parsePadded : String → String → List (List String) :=
  fun _ _ => [[" a "]]

/-- The cache after loading f.csv through parsePadded. -/
def cachePadded : Cache := ⟨some "f.csv", [[" a "]]⟩

/-- A CSV library stub whose output records the delimiter it was invoked
with, to observe which delimiter produced a cached parse. -/
def parseTag : String → String → List (List String) :=
  fun d raw => [[d ++ raw]]

/-- The cache after loading f.csv through parseTag with the comma
delimiter. -/
def cacheTag : Cache := ⟨some "f.csv", [[",r"]]⟩

/-- An Excel stub with no parsable file anywhere. -/
def xfsNone : String → Option (List (List String)) := fun _ => none

/-- A float parser stub for the seed node; never consulted on the paths
exercised below. -/
def pyFloatStub : String → Except String Rat := fun _ => .error "ValueError"

/-- A random.uniform stub returning its lower bound. -/
def uniformStub : Rat → Rat → Rat := fun a _ => a

/-! ## Helper lemmas -/

theorem mem_takeWhile_p {α : Type} (p : α → Bool) :
    ∀ (l : List α) (c : α), c ∈ l.takeWhile p → p c = true := by
  intro l
  induction l with
  | nil => intro c h; simp [List.takeWhile] at h
  | cons a t ih =>
    intro c h
    by_cases hp : p a = true
    · rw [List.takeWhile_cons_of_pos hp] at h
      rcases List.mem_cons.mp h with rfl | h2
      · exact hp
      · exact ih c h2
    · rw [List.takeWhile_cons_of_neg hp] at h
      simp at h

theorem head_dropWhile_p {α : Type} (p : α → Bool) :
    ∀ (l : List α) (c : α), (l.dropWhile p).head? = some c → p c = false := by
  intro l
  induction l with
  | nil => intro c h; simp [List.dropWhile] at h
  | cons a t ih =>
    intro c h
    by_cases hp : p a = true
    · rw [List.dropWhile_cons_of_pos hp] at h
      exact ih c h
    · rw [List.dropWhile_cons_of_neg hp] at h
      simp at h
      subst h
      simpa using hp

theorem stripBoth_decomp (p : Char → Bool) (l : List Char) :
    ∃ pre suf : List Char,
      l = pre ++ stripBoth p l ++ suf
      ∧ (∀ c ∈ pre, p c = true) ∧ (∀ c ∈ suf, p c = true)
      ∧ (∀ c, (stripBoth p l).head? = some c → p c = false)
      ∧ (∀ c, (stripBoth p l).getLast? = some c → p c = false) := by
  refine ⟨l.takeWhile p, ((l.dropWhile p).reverse.takeWhile p).reverse, ?_, ?_, ?_, ?_, ?_⟩
  · conv_lhs => rw [← List.takeWhile_append_dropWhile (p := p) (l := l)]
    have h2 : l.dropWhile p =
        stripBoth p l ++ ((l.dropWhile p).reverse.takeWhile p).reverse := by
      conv_lhs => rw [← List.reverse_reverse (l.dropWhile p)]
      conv_lhs =>
        rw [← List.takeWhile_append_dropWhile (p := p) (l := (l.dropWhile p).reverse)]
      rw [List.reverse_append]
      rfl
    rw [List.append_assoc, ← h2]
  · exact fun c hc => mem_takeWhile_p p l c hc
  · intro c hc
    rw [List.mem_reverse] at hc
    exact mem_takeWhile_p p (l.dropWhile p).reverse c hc
  · intro c hc
    have h2 : l.dropWhile p =
        stripBoth p l ++ ((l.dropWhile p).reverse.takeWhile p).reverse := by
      conv_lhs => rw [← List.reverse_reverse (l.dropWhile p)]
      conv_lhs =>
        rw [← List.takeWhile_append_dropWhile (p := p) (l := (l.dropWhile p).reverse)]
      rw [List.reverse_append]
      rfl
    have hhead : (l.dropWhile p).head? = some c := by
      rw [h2]
      cases hsb : stripBoth p l with
      | nil => rw [hsb] at hc; simp at hc
      | cons a t =>
        rw [hsb] at hc
        simp at hc
        subst hc
        rfl
    exact head_dropWhile_p p l c hhead
  · intro c hc
    have : ((l.dropWhile p).reverse.dropWhile p).head? = some c := by
      have := List.getLast?_reverse ((l.dropWhile p).reverse.dropWhile p)
      rw [← this]
      exact hc
    exact head_dropWhile_p p (l.dropWhile p).reverse c this

theorem processAttempt_attempts (u : Bool) (a : Nat) (r : Record) (st : GenState) :
    (processAttempt u a r st).attempts = st.attempts := by
  simp only [processAttempt]
  split_ifs <;> rfl

theorem processAttempt_accepted (u : Bool) (a : Nat) (r : Record) (st : GenState) :
    (processAttempt u a r st).accepted =
      if isDup u st r then st.accepted else st.accepted + 1 := by
  simp only [processAttempt]
  split_ifs <;> rfl

theorem processAttempt_memory (u : Bool) (a : Nat) (r : Record) (st : GenState) :
    (processAttempt u a r st).memory =
      if isDup u st r then st.memory
      else if u then st.memory ++ [r] else st.memory := by
  simp only [processAttempt]
  split_ifs <;> rfl

theorem processAttempt_of_dup (u : Bool) (a : Nat) (r : Record) (st : GenState)
    (h : isDup u st r = true) : processAttempt u a r st = st := by
  simp [processAttempt, h]

theorem isDup_iff_mem (u : Bool) (st : GenState) (r : Record) :
    isDup u st r = true ↔ r ∈ (if u then st.memory else st.buffer) := by
  unfold isDup
  cases u with
  | false =>
    simp only [Bool.false_eq_true, if_false, List.any_eq_true]
    constructor
    · rintro ⟨p, hp, he⟩
      simp only [Bool.and_eq_true, beq_iff_eq] at he
      obtain ⟨⟨h1, h2⟩, h3⟩ := he
      have : p = r := by
        cases p; cases r
        simp_all
      exact this ▸ hp
    · intro hm
      exact ⟨r, hm, by simp⟩
  | true =>
    simp only [if_true, List.any_eq_true]
    constructor
    · rintro ⟨p, hp, he⟩
      simp only [Bool.and_eq_true, beq_iff_eq] at he
      obtain ⟨⟨h1, h2⟩, h3⟩ := he
      have : p = r := by
        cases p; cases r
        simp_all
      exact this ▸ hp
    · intro hm
      exact ⟨r, hm, by simp⟩

theorem normalizeRange_le (t si ei : Int) :
    (normalizeRange t si ei).1 ≤ (normalizeRange t si ei).2 := by
  simp only [normalizeRange]
  split_ifs <;> simp <;> omega

theorem chooseIndexE_bounds (mode : String) (s e step : Int) (st : Option Int)
    (seed : Nat) (c : Int) (st2 : Option Int)
    (hse : s ≤ e)
    (hok : chooseIndexE mode s e step st seed = .ok (c, st2))
    (hst : mode = "increment" → ∀ v, st = some v → s ≤ v ∧ v ≤ e) :
    s ≤ c ∧ c ≤ e := by
  unfold chooseIndexE at hok
  split_ifs at hok with h1 h2 h3
  · injection hok with h
    injection h with hc _
    omega
  · unfold randint at hok
    rw [if_pos hse] at hok
    simp only [Except.map] at hok
    injection hok with h
    injection h with hc _
    have hm : 0 < (e - s + 1).toNat := by omega
    have := Nat.mod_lt seed hm
    omega
  · injection hok with h
    unfold incStep read_current_index at h
    injection h with hc _
    cases hv : st with
    | none =>
      rw [hv] at hc
      simp [Option.getD] at hc
      omega
    | some v =>
      rw [hv] at hc
      simp [Option.getD] at hc
      have := hst h3 v hv
      omega
  · injection hok with h
    injection h with hc _
    omega

theorem returnedIndex_zero (a b s : Int) : returnedIndex a b s 0 = a := rfl

theorem returnedIndex_succ (a b s : Int) (n : Nat) :
    returnedIndex a b s (n + 1) =
      if returnedIndex a b s n + s > b then a else returnedIndex a b s n + s := rfl

/-! ## Claim C1: range normalization -/

/-- Claim C1, counterexample to the claim as stated: with one row
(total_length = 1) and raw inputs start_index = 5, end_index = 0, the
normalization of read_row produces the pair (0, 5): the swap installs
the never-clamped start_index as the new end_index, and 5 exceeds
total_length - 1 = 0. -/
theorem c1_counterexample :
    normalizeRange 1 5 0 = (0, 5) ∧ ¬ ((normalizeRange 1 5 0).2 ≤ 1 - 1) := by
  constructor
  · rfl
  · decide

/-- Claim C1, amended: the normalization steps of read_row (clamp
start_index to at least 0, clamp end_index to at most total_length - 1,
swap if inverted) establish 0 ≤ start_index ≤ end_index ≤
total_length - 1 for every total_length ≥ 1, provided the raw
end_index is nonnegative (as the node's input schema guarantees) and the
raw start_index does not exceed total_length - 1; without the latter
bound the swap can reintroduce the unclamped start_index as the new
end_index. -/
theorem c1_normalization (total si ei : Int) (ht : 1 ≤ total) (hei : 0 ≤ ei)
    (hsi : si ≤ total - 1) :
    0 ≤ (normalizeRange total si ei).1
    ∧ (normalizeRange total si ei).1 ≤ (normalizeRange total si ei).2
    ∧ (normalizeRange total si ei).2 ≤ total - 1 := by
  simp only [normalizeRange]
  split_ifs <;> simp <;> omega

/-- Witness for c1_normalization at total_length 5, start 1, end 3. -/
theorem c1_normalization_witness :
    0 ≤ (normalizeRange 5 1 3).1
    ∧ (normalizeRange 5 1 3).1 ≤ (normalizeRange 5 1 3).2
    ∧ (normalizeRange 5 1 3).2 ≤ 5 - 1 :=
  c1_normalization 5 1 3 (by decide) (by decide) (by decide)

/-! ## Claim C2: increment mode sequence and period -/

/-- Claim C2: starting from no persisted state, the increment-mode calls
over the normalized range from a to b with step s return
a, a + s, a + 2s, ..., wrapping to a exactly when the next value would
exceed b. The call number n (counting from 0) returns
a + s * (n mod p) where p = floor((b - a) / s) + 1, so the sequence is
periodic with period p; and each call returns the pre-increment value
while persisting its successor (wrapped to a past b) before returning. -/
theorem c2_increment_sequence (a b s : Int) (hab : a ≤ b) (hs : 1 ≤ s) (n : Nat) :
    returnedIndex a b s n =
      a + s * ((n % ((b - a).toNat / s.toNat + 1) : Nat) : Int)
    ∧ returnedIndex a b s (n + ((b - a).toNat / s.toNat + 1)) = returnedIndex a b s n
    ∧ fileAfter a b s (n + 1) =
        some (if returnedIndex a b s n + s > b then a
              else returnedIndex a b s n + s) := by
  have key : ∀ m : Nat, returnedIndex a b s m =
      a + s * ((m % ((b - a).toNat / s.toNat + 1) : Nat) : Int) := by
    set k := (b - a).toNat / s.toNat with hk
    have hcast : ∀ j : Nat, ((j * s.toNat : Nat) : Int) = (j : Int) * s := by
      intro j
      push_cast [Int.toNat_of_nonneg (show (0 : Int) ≤ s by omega)]
      ring
    have hbna : (((b - a).toNat : Nat) : Int) = b - a := Int.toNat_of_nonneg (by omega)
    have hbound : ∀ j : Nat, (a + s * (j : Int) ≤ b) ↔ j ≤ k := by
      intro j
      rw [hk, Nat.le_div_iff_mul_le (show 0 < s.toNat by omega)]
      constructor
      · intro h
        rw [← Nat.cast_le (α := Int), hcast, hbna]
        linarith [mul_comm (j : Int) s]
      · intro h
        have h2 := Nat.cast_le (α := Int) |>.mpr h
        rw [hcast, hbna] at h2
        linarith [mul_comm (j : Int) s]
    intro m
    induction m with
    | zero => simp [returnedIndex_zero]
    | succ m ih =>
      rw [returnedIndex_succ, ih]
      have hp : 0 < k + 1 := Nat.succ_pos k
      have hr : m % (k + 1) < k + 1 := Nat.mod_lt _ hp
      by_cases hcase : m % (k + 1) = k
      · have hgt : a + s * ((m % (k + 1) : Nat) : Int) + s > b := by
          have h1 : ¬ (a + s * (((k + 1 : Nat)) : Int) ≤ b) := by
            intro hcontra
            have := (hbound (k + 1)).1 hcontra
            omega
          push_neg at h1
          rw [hcase]
          have he : s * (((k : Nat) : Int) + 1) = s * ((k : Nat) : Int) + s := by ring
          push_cast at h1
          linarith
        rw [if_pos hgt]
        have hmod : (m + 1) % (k + 1) = 0 := by
          conv_lhs => rw [← Nat.mod_add_mod m (k + 1) 1]
          rw [hcase]
          exact Nat.mod_self (k + 1)
        rw [hmod]
        simp
      · have hle2 : m % (k + 1) + 1 ≤ k := by omega
        have hle : a + s * ((m % (k + 1) : Nat) : Int) + s ≤ b := by
          have h2 := (hbound (m % (k + 1) + 1)).2 hle2
          have he : s * (((m % (k + 1) : Nat) : Int) + 1)
              = s * ((m % (k + 1) : Nat) : Int) + s := by ring
          rw [Nat.cast_add_one] at h2
          linarith
        rw [if_neg (not_lt.mpr hle)]
        have hmod : (m + 1) % (k + 1) = m % (k + 1) + 1 := by
          conv_lhs => rw [← Nat.mod_add_mod m (k + 1) 1]
          exact Nat.mod_eq_of_lt (by omega)
        rw [hmod]
        push_cast
        ring
  refine ⟨key n, ?_, rfl⟩
  rw [key n, key (n + ((b - a).toNat / s.toNat + 1)), Nat.add_mod_right]

/-- Witness for c2_increment_sequence: over the normalized range 1..3
with step 1 (a 5-row source with start_index 1, end_index 3), the five
sequential calls return 1, 2, 3, 1, 2, and the sequence repeats with
period 3. -/
theorem c2_increment_sequence_witness :
    ([returnedIndex 1 3 1 0, returnedIndex 1 3 1 1, returnedIndex 1 3 1 2,
      returnedIndex 1 3 1 3, returnedIndex 1 3 1 4] = [1, 2, 3, 1, 2])
    ∧ returnedIndex 1 3 1 (2 + (((3 : Int) - 1).toNat / (1 : Int).toNat + 1))
        = returnedIndex 1 3 1 2
    ∧ normalizeRange 5 1 3 = (1, 3) := by
  refine ⟨by decide, (c2_increment_sequence 1 3 1 (by decide) (by decide) 2).2.1, by decide⟩

/-! ## Claim C3: the selected index against the normalized range -/

/-- Claim C3, counterexample to the claim as stated: in increment mode,
with a 5-row source, normalized range (1, 3) and a state file whose
contents parse as the stale integer 0 (for example written by an
external process), read_row succeeds and selects index 0, which lies
outside the closed interval from 1 to 3 even though total_length > 0. -/
theorem c3_counterexample :
    read_rowE fsOne parseFive cache0 (some 0) 0 "f.csv" "increment" 1 3 1 ","
      = .ok ("a", 0, cacheFive, some 1)
    ∧ normalizeRange 5 1 3 = (1, 3)
    ∧ ¬ ((1 : Int) ≤ 0) := by
  refine ⟨?_, by decide, by decide⟩
  rfl

/-- Claim C3, amended: whenever read_row succeeds, the selected index
lies within the normalized closed range for the disabled and random
modes (and for unrecognized mode strings, which fall back to
start_index) unconditionally, and for increment mode provided the
state-file contents are absent, unparsable, or an integer already inside
the normalized range. A stale or externally written integer outside the
range is served as-is by read_current_index, so the claim's guarantee
does not hold for it. -/
theorem c3_selected_in_range
    (fs : String → Option String) (parse : String → String → List (List String))
    (cache : Cache) (state : Option Int) (seed : Nat) (fp mode : String)
    (si ei ss : Int) (d : String)
    (data : List (List String)) (cache2 : Cache)
    (text : String) (chosen : Int) (cache3 : Cache) (st2 : Option Int)
    (hload : load_file fs parse cache fp d = .ok (data, cache2))
    (hrun : read_rowE fs parse cache state seed fp mode si ei ss d
      = .ok (text, chosen, cache3, st2))
    (hstate : mode = "increment" → ∀ v, state = some v →
      (normalizeRange (data.length : Int) si ei).1 ≤ v
      ∧ v ≤ (normalizeRange (data.length : Int) si ei).2) :
    (normalizeRange (data.length : Int) si ei).1 ≤ chosen
    ∧ chosen ≤ (normalizeRange (data.length : Int) si ei).2 := by
  unfold read_rowE at hrun
  rw [hload] at hrun
  dsimp only at hrun
  split at hrun
  · exact absurd hrun (by simp)
  · rename_i c0 s0 heq
    split at hrun
    · exact absurd hrun (by simp)
    · rename_i row heq2
      simp only [Except.ok.injEq, Prod.mk.injEq] at hrun
      obtain ⟨-, hc, -, -⟩ := hrun
      subst hc
      exact chooseIndexE_bounds mode _ _ ss state seed c0 s0
        (normalizeRange_le _ _ _) heq hstate

/-- Witness for c3_selected_in_range: increment mode over a 5-row source
with state-file contents 2 inside the normalized range 1..3 selects 2. -/
theorem c3_selected_in_range_witness :
    (normalizeRange ((dataFive.length : Nat) : Int) 1 3).1 ≤ 2
    ∧ (2 : Int) ≤ (normalizeRange ((dataFive.length : Nat) : Int) 1 3).2 :=
  c3_selected_in_range fsOne parseFive cache0 (some 2) 0 "f.csv" "increment"
    1 3 1 "," dataFive cacheFive "c" 2 cacheFive (some 3) rfl rfl
    (fun _ v hv => by
      injection hv with h
      subst h
      exact ⟨by decide, by decide⟩)

/-! ## Claim C4: a duplicate consumes an attempt but is not accepted -/

/-- Claim C4: a parsed record that is structurally equal to a record of
the durable memory (when use_memory) or of the run buffer (when not) is
not accepted: the loop-body step leaves the whole state unchanged (no
counter advance, no append anywhere, no flush), while the attempt
counter is incremented by the loop. Consequently three attempts whose
first and third records are structurally identical (and whose second
differs) yield 2 accepted records out of 3 attempts. -/
theorem c4_duplicate_not_accepted :
    (∀ (u : Bool) (a : Nat) (r : Record) (st : GenState),
      isDup u st r = true → processAttempt u a r st = st)
    ∧ (∀ (a : Nat) (r1 r2 : Record), r1 ≠ r2 →
        (runAttempts true a [r1, r2, r1] initGenState).accepted = 2
        ∧ (runAttempts true a [r1, r2, r1] initGenState).attempts = 3) := by
  constructor
  · exact fun u a r st h => processAttempt_of_dup u a r st h
  · intro a r1 r2 hne
    simp only [runAttempts, List.foldl, initGenState]
    set A := processAttempt true a r1 ⟨[], [], [], 0, 0 + 1⟩ with hA
    have hAmem : A.memory = [r1] := by
      rw [hA, processAttempt_memory]
      simp [isDup]
    have hAacc : A.accepted = 1 := by
      rw [hA, processAttempt_accepted]
      simp [isDup]
    have hAatt : A.attempts = 1 := by
      rw [hA, processAttempt_attempts]
    set B := processAttempt true a r2 ⟨A.memory, A.buffer, A.saved, A.accepted,
      A.attempts + 1⟩ with hB
    have hBdup : isDup true ⟨A.memory, A.buffer, A.saved, A.accepted,
        A.attempts + 1⟩ r2 = false := by
      rw [Bool.eq_false_iff]
      intro hcontra
      have hmem := (isDup_iff_mem true _ r2).1 hcontra
      simp only [if_true] at hmem
      rw [show (⟨A.memory, A.buffer, A.saved, A.accepted,
        A.attempts + 1⟩ : GenState).memory = A.memory from rfl, hAmem] at hmem
      simp at hmem
      exact hne hmem.symm
    have hBmem : B.memory = [r1, r2] := by
      rw [hB, processAttempt_memory, hBdup]
      simp [hAmem]
    have hBacc : B.accepted = 2 := by
      rw [hB, processAttempt_accepted, hBdup]
      simp [hAacc]
    have hBatt : B.attempts = 2 := by
      rw [hB, processAttempt_attempts]
      simp [hAatt]
    have hCdup : isDup true ⟨B.memory, B.buffer, B.saved, B.accepted,
        B.attempts + 1⟩ r1 = true := by
      apply (isDup_iff_mem true _ r1).2
      simp only [if_true]
      rw [show (⟨B.memory, B.buffer, B.saved, B.accepted,
        B.attempts + 1⟩ : GenState).memory = B.memory from rfl, hBmem]
      simp
    rw [processAttempt_of_dup true a r1 _ hCdup]
    exact ⟨by simp [hBacc], by simp [hBatt]⟩

/-- Witness for c4_duplicate_not_accepted: three concrete attempts with
identical first and third records accept 2, and a duplicate of a
one-record memory leaves the state unchanged. -/
theorem c4_duplicate_not_accepted_witness :
    (runAttempts true 0 [⟨"a", "b", "c"⟩, ⟨"d", "e", "f"⟩, ⟨"a", "b", "c"⟩]
        initGenState).accepted = 2
    ∧ processAttempt true 0 (⟨"a", "b", "c"⟩ : Record)
        ⟨[⟨"a", "b", "c"⟩], [], [], 1, 1⟩ = ⟨[⟨"a", "b", "c"⟩], [], [], 1, 1⟩ := by
  refine ⟨((c4_duplicate_not_accepted).2 0 ⟨"a", "b", "c"⟩ ⟨"d", "e", "f"⟩
      (by decide)).1,
    (c4_duplicate_not_accepted).1 true 0 _ _ (by decide)⟩

/-! ## Claim C5: the durable memory never holds two equal records -/

/-- Claim C5: with deduplication enabled (use_memory true), the per-model
durable memory never contains two structurally equal records after any
sequence of loop iterations starting from no persisted memory, because
each step appends a record only when no structurally equal record is
already present, and otherwise leaves the memory unchanged; insertion
order is preserved (the memory only ever grows by appending at the
end). -/
theorem c5_memory_nodup :
    (∀ (a : Nat) (rs : List Record),
      ((runAttempts true a rs initGenState).memory).Nodup)
    ∧ (∀ (a : Nat) (r : Record) (st : GenState),
        ((processAttempt true a r st).memory = st.memory ++ [r] ∧ r ∉ st.memory)
        ∨ (processAttempt true a r st).memory = st.memory) := by
  have hstep : ∀ (a : Nat) (r : Record) (st : GenState),
      ((processAttempt true a r st).memory = st.memory ++ [r] ∧ r ∉ st.memory)
      ∨ (processAttempt true a r st).memory = st.memory := by
    intro a r st
    by_cases hd : isDup true st r = true
    · right
      rw [processAttempt_of_dup true a r st hd]
    · left
      constructor
      · rw [processAttempt_memory]
        simp only [Bool.not_eq_true] at hd
        rw [hd]
        simp
      · intro hmem
        exact hd ((isDup_iff_mem true st r).2 (by simpa using hmem))
  refine ⟨?_, hstep⟩
  intro a rs
  have main : ∀ (rs : List Record) (st : GenState), st.memory.Nodup →
      ((runAttempts true a rs st).memory).Nodup := by
    intro rs
    induction rs with
    | nil => exact fun st h => h
    | cons r rs ih =>
      intro st h
      show ((runAttempts true a rs (processAttempt true a r
        ⟨st.memory, st.buffer, st.saved, st.accepted, st.attempts + 1⟩)).memory).Nodup
      apply ih
      rcases hstep a r ⟨st.memory, st.buffer, st.saved, st.accepted, st.attempts + 1⟩
        with ⟨hmem, hnotin⟩ | hmem
      · rw [hmem]
        simp only [List.nodup_append]
        exact ⟨h, List.nodup_singleton r, by simpa using hnotin⟩
      · rw [hmem]
        exact h
  exact main rs initGenState (by simp [initGenState])

/-! ## Claim C6: parsing of the collaborator response -/

/-- Claim C6: the labelled-lines parse extracts the example record from
a Title/Description/Style response, including responses where a label's
value sits on the following line (the whitespace after the label also
matches newlines); whenever the parse yields none, the record
substituted by the generation loop is exactly the UNPARSED fallback
carrying the entire raw response; the parse yields none both when none
of the three labels is found and when all three extracted fields are
empty after trimming; and the fallback record passes through the same
duplicate check as any other record (a duplicate fallback leaves the
state unchanged). -/
theorem c6_parsing :
    parse_ollama_output "Title: Foo\nDescription: Bar\nStyle: Baz"
      = some ⟨"Foo", "Bar", "Baz"⟩
    ∧ parse_ollama_output
        "Title:\nA Lonely Road\nDescription:\nA misty highway\nStyle:\ncinematic"
      = some ⟨"A Lonely Road", "A misty highway", "cinematic"⟩
    ∧ parse_ollama_output "Description:\nBar" = some ⟨"", "Bar", ""⟩
    ∧ (∀ r : String, parse_ollama_output r = none →
        attemptRecord r = ⟨"UNPARSED", r, ""⟩)
    ∧ (∀ r : String,
        ((titleSearch r = none ∧ descSearch r = none ∧ styleSearch r = none)
          ∨ (extractedField (titleSearch r) = "" ∧ extractedField (descSearch r) = ""
              ∧ extractedField (styleSearch r) = "")) →
        parse_ollama_output r = none)
    ∧ (∀ (r : String) (u : Bool) (a : Nat) (st : GenState),
        isDup u st (attemptRecord r) = true →
        processAttempt u a (attemptRecord r) st = st) := by
  refine ⟨by decide, by decide, by decide, ?_, ?_, ?_⟩
  · intro r h
    unfold attemptRecord
    rw [h]
  · intro r h
    simp only [parse_ollama_output]
    rcases h with ⟨h1, h2, h3⟩ | ⟨h1, h2, h3⟩
    · rw [if_pos ⟨h1, h2, h3⟩]
    · split_ifs with ha hb
      · rfl
      · rfl
      · exact absurd ⟨h1, h2, h3⟩ hb
  · exact fun r u a st h => processAttempt_of_dup u a (attemptRecord r) st h

/-- Witness for c6_parsing: the response zzz has no labels, produces the
UNPARSED fallback verbatim, and that fallback is rejected as a duplicate
against a memory already holding it. -/
theorem c6_parsing_witness :
    attemptRecord "zzz" = ⟨"UNPARSED", "zzz", ""⟩
    ∧ processAttempt true 0 (attemptRecord "zzz")
        ⟨[⟨"UNPARSED", "zzz", ""⟩], [], [], 1, 1⟩
      = ⟨[⟨"UNPARSED", "zzz", ""⟩], [], [], 1, 1⟩ :=
  ⟨(c6_parsing).2.2.2.1 "zzz" (by decide),
   (c6_parsing).2.2.2.2.2 "zzz" true 0 _ (by decide)⟩

/-! ## Claim C7: error handling at the component boundaries -/

/-- Claim C7: whenever any step of the row-reading bodies fails (missing
file, unsupported extension, out-of-range index, failed random draw), the
boundary functions read_row and read_excel_row catch the failure and
return the empty string, so no exception reaches the caller; the
seed-looper boundary process_seed instead re-raises the body's failure
unchanged to its caller. -/
theorem c7_error_boundaries :
    (∀ (fs : String → Option String) (parse : String → String → List (List String))
      (cache : Cache) (state : Option Int) (seed : Nat) (fp mode : String)
      (si ei ss : Int) (d msg : String),
      read_rowE fs parse cache state seed fp mode si ei ss d = .error msg →
      read_row fs parse cache state seed fp mode si ei ss d = "")
    ∧ (∀ (xfs : String → Option (List (List String))) (fp : String) (ri : Int)
        (d msg : String),
        read_excel_rowE xfs fp ri d = .error msg →
        read_excel_row xfs fp ri d = "")
    ∧ (∀ (pyFloat : String → Except String Rat) (uniform : Rat → Rat → Rat)
        (seed : Int) (mode : String) (sv ev ss : Rat) (lc dp : Int)
        (cv : Option String) (self : SeedState) (msg : String),
        process_seedE pyFloat uniform seed mode sv ev ss lc dp cv self = .error msg →
        process_seed pyFloat uniform seed mode sv ev ss lc dp cv self = .error msg) := by
  refine ⟨?_, ?_, ?_⟩
  · intro fs parse cache state seed fp mode si ei ss d msg h
    unfold read_row
    rw [h]
  · intro xfs fp ri d msg h
    unfold read_excel_row
    rw [h]
  · intro pf uf seed mode sv ev ss lc dp cv self msg h
    unfold process_seed
    rw [h]

/-- Witness for c7_error_boundaries: a missing CSV file and a missing
Excel file yield the empty string at the row-reading boundaries, while a
zero step size in increment mode (the division by zero of the body)
escapes process_seed as the original error. -/
theorem c7_error_boundaries_witness :
    read_row fsNone parseFive cache0 none 0 "x.csv" "disabled" 0 0 1 "," = ""
    ∧ read_excel_row xfsNone "a.xlsx" 0 "," = ""
    ∧ process_seed pyFloatStub uniformStub 0 "increment" 0 1 0 10 2 none seedState0
        = .error "ZeroDivisionError" := by
  have hseed : process_seedE pyFloatStub uniformStub 0 "increment" 0 1 0 10 2 none
      seedState0 = .error "ZeroDivisionError" := by
    norm_num [process_seedE, customTruthy]
    rw [if_neg (by decide : ¬ ("increment" : String) = "disabled"),
        if_neg (by decide : ¬ ("increment" : String) = "random")]
  exact ⟨(c7_error_boundaries).1 fsNone parseFive cache0 none 0 "x.csv" "disabled"
      0 0 1 "," "FileNotFoundError" rfl,
    (c7_error_boundaries).2.1 xfsNone "a.xlsx" 0 "," "FileNotFoundError" rfl,
    (c7_error_boundaries).2.2 pyFloatStub uniformStub 0 "increment" 0 1 0 10 2 none
      seedState0 "ZeroDivisionError" hseed⟩

/-! ## Claim C8: the joined row text and what is stripped from it -/

/-- Claim C8, counterexample to the claim as stated: for a row whose only
cell is the text a surrounded by spaces, read_row returns a (it strips
the surrounding spaces), while stripping only the three quote characters,
as the claim describes, would leave the spaces in place. -/
theorem c8_counterexample :
    read_rowE fsOne parsePadded cache0 none 0 "f.csv" "disabled" 0 0 1 ","
      = .ok ("a", 0, cachePadded, none)
    ∧ quoteOnlyStripSpec (String.intercalate "," [" a "]) = " a "
    ∧ ("a" : String) ≠ " a " := by
  refine ⟨rfl, by decide, by decide⟩

/-- Claim C8, amended: the emitted row text is the row's cells joined by
the caller-supplied delimiter with leading and trailing characters from
the set consisting of the space, the ASCII double quote and the two
Unicode smart quotes stripped from the joined string, and nothing else
removed: the joined string decomposes as a stripped-off head and tail
made only of those characters around the returned text, whose own first
and last characters are not in the set. -/
theorem c8_strip_joined :
    (∀ (d : String) (row : List String),
      ∃ pre suf : List Char,
        (String.intercalate d row).data
          = pre ++ (pyStripSet stripChars (String.intercalate d row)).data ++ suf
        ∧ (∀ c ∈ pre, stripChars.contains c = true)
        ∧ (∀ c ∈ suf, stripChars.contains c = true)
        ∧ (∀ c, ((pyStripSet stripChars (String.intercalate d row)).data).head?
            = some c → stripChars.contains c = false)
        ∧ (∀ c, ((pyStripSet stripChars (String.intercalate d row)).data).getLast?
            = some c → stripChars.contains c = false))
    ∧ (∀ (fs : String → Option String) (parse : String → String → List (List String))
        (cache : Cache) (state : Option Int) (seed : Nat) (fp mode : String)
        (si ei ss : Int) (d : String) (data : List (List String)) (cache2 : Cache)
        (text : String) (chosen : Int) (cache3 : Cache) (st2 : Option Int)
        (row : List String),
        load_file fs parse cache fp d = .ok (data, cache2) →
        read_rowE fs parse cache state seed fp mode si ei ss d
          = .ok (text, chosen, cache3, st2) →
        pyIndexE data chosen = .ok row →
        text = pyStripSet stripChars (String.intercalate d row)) := by
  constructor
  · intro d row
    exact stripBoth_decomp (fun c => stripChars.contains c)
      (String.intercalate d row).data
  · intro fs parse cache state seed fp mode si ei ss d data cache2 text chosen
      cache3 st2 row hload hrun hidx
    unfold read_rowE at hrun
    rw [hload] at hrun
    dsimp only at hrun
    split at hrun
    · exact absurd hrun (by simp)
    · rename_i c0 s0 heq
      split at hrun
      · exact absurd hrun (by simp)
      · rename_i row0 heq2
        simp only [Except.ok.injEq, Prod.mk.injEq] at hrun
        obtain ⟨htext, hc, -, -⟩ := hrun
        subst hc
        rw [heq2] at hidx
        simp only [Except.ok.injEq] at hidx
        subst hidx
        exact htext.symm

/-- Witness for c8_strip_joined: the padded one-cell row joined with a
comma is returned with its surrounding spaces stripped. -/
theorem c8_strip_joined_witness :
    ("a" : String) = pyStripSet stripChars (String.intercalate "," [" a "]) :=
  (c8_strip_joined).2 fsOne parsePadded cache0 none 0 "f.csv" "disabled" 0 0 1 ","
    [[" a "]] cachePadded "a" 0 cachePadded none [" a "] rfl rfl rfl

/-! ## Claim C9: the retry loop is bounded and cancellable -/

/-- Claim C9: the generation retry loop spends at most 3 * target_count
attempts in total (each iteration either accepts a record or only
consumes budget, and every iteration consumes one attempt), and when the
cancellation flag is set the loop returns the current state as a partial
result, not an error. -/
theorem c9_attempt_bound :
    (∀ (u : Bool) (a num : Nat) (stopAt : Nat → Bool)
      (resp : Nat → Except String String) (st : GenState),
      (genRun u a num stopAt resp st).attempts ≤ max st.attempts (3 * num))
    ∧ (∀ (u : Bool) (a num : Nat) (stopAt : Nat → Bool)
        (resp : Nat → Except String String) (st : GenState),
        (∀ n, stopAt n = true) → genRun u a num stopAt resp st = st) := by
  constructor
  · intro u a num stopAt resp st
    have key : ∀ (m : Nat) (st : GenState), 3 * num - st.attempts ≤ m →
        (genRun u a num stopAt resp st).attempts ≤ max st.attempts (3 * num) := by
      intro m
      induction m with
      | zero =>
        intro st hm
        unfold genRun
        rw [dif_neg (by omega)]
        exact le_max_left _ _
      | succ m ih =>
        intro st hm
        unfold genRun
        by_cases hcond : st.accepted < num ∧ st.attempts < 3 * num
        · rw [dif_pos hcond]
          by_cases hstop : stopAt st.attempts = true
          · rw [if_pos hstop]
            exact le_max_left _ _
          · rw [if_neg hstop]
            cases hresp : resp st.attempts with
            | error e =>
              show st.attempts + 1 ≤ max st.attempts (3 * num)
              exact le_trans (by omega : st.attempts + 1 ≤ 3 * num) (le_max_right _ _)
            | ok r =>
              show (genRun u a num stopAt resp (processAttempt u a (attemptRecord r)
                ⟨st.memory, st.buffer, st.saved, st.accepted,
                  st.attempts + 1⟩)).attempts ≤ max st.attempts (3 * num)
              have hatt : (processAttempt u a (attemptRecord r)
                  ⟨st.memory, st.buffer, st.saved, st.accepted,
                    st.attempts + 1⟩).attempts = st.attempts + 1 :=
                processAttempt_attempts _ _ _ _
              have hrec := ih (processAttempt u a (attemptRecord r)
                ⟨st.memory, st.buffer, st.saved, st.accepted, st.attempts + 1⟩)
                (by omega)
              have hmax : max (processAttempt u a (attemptRecord r)
                  ⟨st.memory, st.buffer, st.saved, st.accepted,
                    st.attempts + 1⟩).attempts (3 * num) = 3 * num := by
                rw [hatt]
                exact max_eq_right (by omega)
              rw [hmax] at hrec
              exact le_trans hrec (le_max_right _ _)
        · rw [dif_neg hcond]
          exact le_max_left _ _
    exact key (3 * num - st.attempts) st le_rfl
  · intro u a num stopAt resp st hstop
    unfold genRun
    by_cases hcond : st.accepted < num ∧ st.attempts < 3 * num
    · rw [dif_pos hcond, if_pos (hstop st.attempts)]
    · rw [dif_neg hcond]

/-- Witness for c9_attempt_bound: with the cancellation flag always set,
a run over target 5 returns the initial state unchanged (an empty partial
result), and its attempt count respects the bound of 15. -/
theorem c9_attempt_bound_witness :
    genRun true 0 5 (fun _ => true) (fun _ => .ok "x") initGenState = initGenState
    ∧ (genRun true 0 5 (fun _ => true) (fun _ => .ok "x") initGenState).attempts
        ≤ max initGenState.attempts (3 * 5) :=
  ⟨(c9_attempt_bound).2 true 0 5 _ _ initGenState (fun _ => rfl),
   (c9_attempt_bound).1 true 0 5 _ _ initGenState⟩

/-! ## Claim C10: the file cache is keyed by path alone -/

/-- Claim C10: load_file serves the cached parse unchanged whenever the
requested path equals the cached path, regardless of the delimiter
argument; hence after a first call parses a file with one delimiter, a
second call with the same path and a different delimiter is served the
rows parsed with the first call's delimiter. -/
theorem c10_cache_by_path :
    (∀ (fs : String → Option String) (parse : String → String → List (List String))
      (c : Cache) (fp d : String),
      c.file_path_cache = some fp →
      load_file fs parse c fp d = .ok (c.file_data_cache, c))
    ∧ (∀ (fs : String → Option String) (parse : String → String → List (List String))
        (c0 : Cache) (fp raw d1 d2 : String),
        c0.file_path_cache ≠ some fp → fs fp = some raw → pyExt fp = ".csv" →
        load_file fs parse c0 fp d1 = .ok (parse d1 raw, ⟨some fp, parse d1 raw⟩)
        ∧ load_file fs parse ⟨some fp, parse d1 raw⟩ fp d2
            = .ok (parse d1 raw, ⟨some fp, parse d1 raw⟩)) := by
  constructor
  · intro fs parse c fp d h
    unfold load_file
    rw [if_pos h]
  · intro fs parse c0 fp raw d1 d2 hne hfs hext
    constructor
    · unfold load_file
      rw [if_neg hne, hfs]
      dsimp only
      rw [if_neg (by simp [hext])]
    · unfold load_file
      rw [if_pos rfl]

/-- Witness for c10_cache_by_path: a first load of f.csv with the comma
delimiter caches the comma parse; a second load with the semicolon
delimiter is served that same comma parse, although parsing with the
semicolon delimiter would have produced different rows. -/
theorem c10_cache_by_path_witness :
    (load_file fsOne parseTag cache0 "f.csv" ","
        = .ok (parseTag "," "r", ⟨some "f.csv", parseTag "," "r"⟩)
      ∧ load_file fsOne parseTag ⟨some "f.csv", parseTag "," "r"⟩ "f.csv" ";"
        = .ok (parseTag "," "r", ⟨some "f.csv", parseTag "," "r"⟩))
    ∧ parseTag "," "r" ≠ parseTag ";" "r" :=
  ⟨(c10_cache_by_path).2 fsOne parseTag cache0 "f.csv" "r" "," ";"
      (by decide) rfl (by decide),
   by decide⟩
